import Mathlib

/-!
Shallow embedding of `src/main.py` (whatsapp-exif-tool): a pipeline that
extracts a capture timestamp from WhatsApp-style filenames and writes it
as EXIF / video metadata into copies of the files.

Strings are modelled as Lean `String`s; the three regular expressions of
the source (`REGEX_FILENAME_DATE`, the `at DD.DD.DD` time pattern, and the
EXIF date pattern of `check_exif`) are modelled as character-list matchers
together with a leftmost-occurrence search mirroring `re.search`.
The filesystem is modelled as a partial map from paths to abstract file
contents; the external collaborators (PIL image codec, piexif, exiftool)
are modelled as an explicit environment.
-/

namespace WaExif

/-- Matcher for `REGEX_FILENAME_DATE = r'(?P<year>\d{4})(?P<month>\d{2})(?P<day>\d{2})'`
at the head of a character list: eight consecutive decimal digits. -/
def matchDate8 : List Char → Bool
  | c1 :: c2 :: c3 :: c4 :: c5 :: c6 :: c7 :: c8 :: _ =>
      c1.isDigit && c2.isDigit && c3.isDigit && c4.isDigit &&
      c5.isDigit && c6.isDigit && c7.isDigit && c8.isDigit
  | _ => false

/-- Matcher for the time regex `r'at (\d{2})\.(\d{2})\.(\d{2})'` at the head
of a character list. -/
def matchAtTime : List Char → Bool
  | 'a' :: 't' :: ' ' :: h1 :: h2 :: '.' :: m1 :: m2 :: '.' :: s1 :: s2 :: _ =>
      h1.isDigit && h2.isDigit && m1.isDigit && m2.isDigit && s1.isDigit && s2.isDigit
  | _ => false

/-- Matcher for the EXIF date pattern `r'\d{4}:\d{2}:\d{2} \d{2}:\d{2}:\d{2}'`
of `check_exif` at the head of a character list. -/
def matchExifDate : List Char → Bool
  | y1 :: y2 :: y3 :: y4 :: ':' :: o1 :: o2 :: ':' :: d1 :: d2 :: ' ' ::
      h1 :: h2 :: ':' :: i1 :: i2 :: ':' :: s1 :: s2 :: _ =>
      y1.isDigit && y2.isDigit && y3.isDigit && y4.isDigit &&
      o1.isDigit && o2.isDigit && d1.isDigit && d2.isDigit &&
      h1.isDigit && h2.isDigit && i1.isDigit && i2.isDigit &&
      s1.isDigit && s2.isDigit
  | _ => false

/-- `re.search` semantics: index of the leftmost suffix of `cs` on which the
matcher `p` fires, if any. -/
def findFirstSuffix (p : List Char → Bool) : List Char → Option Nat
  | [] => none
  | c :: rest => if p (c :: rest) then some 0 else (findFirstSuffix p rest).map (· + 1)

theorem findFirstSuffix_none_spec (p : List Char → Bool) (hp : p [] = false) :
    ∀ cs : List Char, findFirstSuffix p cs = none → ∀ i, p (cs.drop i) = false := by
  intro cs
  induction cs with
  | nil => intro _ i; simpa using hp
  | cons c rest ih =>
    intro h i
    simp only [findFirstSuffix] at h
    by_cases hc : p (c :: rest) = true
    · simp [hc] at h
    · rw [if_neg hc] at h
      cases i with
      | zero => simpa using Bool.eq_false_iff.mpr hc
      | succ j =>
        simp only [Option.map_eq_none'] at h
        exact ih h j

theorem findFirstSuffix_some_spec (p : List Char → Bool) :
    ∀ (cs : List Char) (i : Nat), findFirstSuffix p cs = some i →
      p (cs.drop i) = true ∧ ∀ j, j < i → p (cs.drop j) = false := by
  intro cs
  induction cs with
  | nil => intro i h; simp [findFirstSuffix] at h
  | cons c rest ih =>
    intro i h
    simp only [findFirstSuffix] at h
    by_cases hc : p (c :: rest) = true
    · rw [if_pos hc] at h
      obtain rfl : (0 : Nat) = i := Option.some.inj h
      exact ⟨hc, fun j hj => absurd hj (Nat.not_lt_zero j)⟩
    · rw [if_neg hc] at h
      cases i with
      | zero =>
        exfalso
        rcases Option.map_eq_some'.mp h with ⟨k, _, hk⟩
        exact Nat.succ_ne_zero k hk
      | succ m =>
        rcases Option.map_eq_some'.mp h with ⟨k, hk, hkm⟩
        rw [Nat.succ.inj hkm] at hk
        rcases ih m hk with ⟨h1, h2⟩
        refine ⟨h1, ?_⟩
        intro j hj
        cases j with
        | zero => exact Bool.eq_false_iff.mpr hc
        | succ l => exact h2 l (Nat.lt_of_succ_lt_succ hj)

theorem findFirstSuffix_eq_some_of_least (p : List Char → Bool) (hp : p [] = false) :
    ∀ (cs : List Char) (i : Nat), p (cs.drop i) = true →
      (∀ j, j < i → p (cs.drop j) = false) → findFirstSuffix p cs = some i := by
  intro cs
  induction cs with
  | nil =>
    intro i h1 _
    rw [List.drop_nil] at h1
    rw [hp] at h1
    exact absurd h1 (by simp)
  | cons c rest ih =>
    intro i h1 h2
    simp only [findFirstSuffix]
    cases i with
    | zero =>
      simp only [List.drop_zero] at h1
      rw [if_pos h1]
    | succ m =>
      have hc : p (c :: rest) = false := h2 0 (Nat.succ_pos m)
      rw [if_neg (by simp [hc])]
      have hrec : findFirstSuffix p rest = some m := by
        apply ih m
        · simpa using h1
        · intro j hj
          have := h2 (j + 1) (Nat.succ_lt_succ hj)
          simpa using this
      rw [hrec]
      rfl

/-- Characterization of the filename date matcher: it fires exactly when the
list has at least eight characters and the first eight are decimal digits
(no calendar-range constraint whatsoever). -/
theorem matchDate8_iff (l : List Char) :
    matchDate8 l = true ↔ 8 ≤ l.length ∧ ∀ c ∈ l.take 8, c.isDigit = true := by
  match l with
  | [] => simp [matchDate8]
  | [c1] => simp [matchDate8]
  | [c1, c2] => simp [matchDate8]
  | [c1, c2, c3] => simp [matchDate8]
  | [c1, c2, c3, c4] => simp [matchDate8]
  | [c1, c2, c3, c4, c5] => simp [matchDate8]
  | [c1, c2, c3, c4, c5, c6] => simp [matchDate8]
  | [c1, c2, c3, c4, c5, c6, c7] => simp [matchDate8]
  | c1 :: c2 :: c3 :: c4 :: c5 :: c6 :: c7 :: c8 :: rest =>
    simp only [matchDate8, List.length_cons, List.take_succ_cons, List.take_zero,
      List.mem_cons, List.not_mem_nil]
    constructor
    · intro h
      simp only [Bool.and_eq_true] at h
      refine ⟨by omega, ?_⟩
      intro c hc
      rcases hc with rfl | rfl | rfl | rfl | rfl | rfl | rfl | rfl | h'
      · exact h.1.1.1.1.1.1.1
      · exact h.1.1.1.1.1.1.2
      · exact h.1.1.1.1.1.2
      · exact h.1.1.1.1.2
      · exact h.1.1.1.2
      · exact h.1.1.2
      · exact h.1.2
      · exact h.2
      · simp [List.take] at h'
    · intro ⟨_, h⟩
      simp only [Bool.and_eq_true]
      refine ⟨⟨⟨⟨⟨⟨⟨?_, ?_⟩, ?_⟩, ?_⟩, ?_⟩, ?_⟩, ?_⟩, ?_⟩ <;>
        first
          | exact h c1 (by simp [List.take])
          | exact h c2 (by simp [List.take])
          | exact h c3 (by simp [List.take])
          | exact h c4 (by simp [List.take])
          | exact h c5 (by simp [List.take])
          | exact h c6 (by simp [List.take])
          | exact h c7 (by simp [List.take])
          | exact h c8 (by simp [List.take])

/-- Model of the piexif Exif payload built by `new_image_exif_data`:
the two tags `DateTimeOriginal` and `DateTimeDigitized`, both textual. -/
structure ExifPayload where
  dateTimeOriginal : String
  dateTimeDigitized : String
deriving DecidableEq

/-- Model of the `File` dataclass of `src/main.py`. -/
structure File where
  filename : String := ""
  file_path : String := ""
  new_file_path : String := ""
  extension : String := ""
  parsed_date : String := ""
  exif_bytes : Option ExifPayload := none
  relative_dir : String := ""
deriving DecidableEq

/-- `FILES_EXT = ['jpeg', 'jpg', 'mp4']` -/
def FILES_EXT : List String := ["jpeg", "jpg", "mp4"]

/-- `VIDEO_EXT = ['mp4']` -/
def VIDEO_EXT : List String := ["mp4"]

/-- `IMAGE_EXT = ['jpeg', 'jpg']` -/
def IMAGE_EXT : List String := ["jpeg", "jpg"]

/-- Year/month/day slice of the date match starting at index `i`, joined with
colons, exactly as `parse_filename_to_date` formats the named groups. -/
def dateSliceStr (cs : List Char) (i : Nat) : String :=
  String.mk ((cs.drop i).take 4) ++ ":" ++
  String.mk (((cs.drop i).drop 4).take 2) ++ ":" ++
  String.mk (((cs.drop i).drop 6).take 2)

/-- Hour/minute/second slice of the time match starting at index `j`
(the literal `at ` occupies offsets `j`, `j+1`, `j+2`). -/
def timeSliceStr (cs : List Char) (j : Nat) : String :=
  String.mk (((cs.drop j).drop 3).take 2) ++ ":" ++
  String.mk (((cs.drop j).drop 6).take 2) ++ ":" ++
  String.mk (((cs.drop j).drop 9).take 2)

/-- `parse_filename_to_date` of `src/main.py`: leftmost `\d{4}\d{2}\d{2}`
date match and leftmost `at \d{2}\.\d{2}\.\d{2}` time match in the filename;
sets `parsed_date` to `YYYY:MM:DD HH:MM:SS` when a date is found (time
defaulting to `00:00:00`), returns the file unchanged otherwise. -/
def parse_filename_to_date (f : File) : File :=
  match findFirstSuffix matchDate8 f.filename.data with
  | none => f
  | some i =>
    let date_str := dateSliceStr f.filename.data i
    let time_str :=
      match findFirstSuffix matchAtTime f.filename.data with
      | some j => timeSliceStr f.filename.data j
      | none => "00:00:00"
    { f with parsed_date := date_str ++ " " ++ time_str }

/-- One value of the `Exif` IFD mapping scanned by `check_exif`:
either bytes that decode as UTF-8 to a string, bytes whose decoding raises
`UnicodeDecodeError`, or a non-bytes value (skipped by the `isinstance`
check). -/
inductive ExifField
  | bytesUtf8 (s : String)
  | bytesUndecodable
  | nonBytes
deriving DecidableEq

/-- Abstract content of an image file as seen by
`export_exif_data`: the file may fail to open/decode (`Image.open` raises),
carry no EXIF block (`im.info.get("exif")` falsy), carry an EXIF block that
`piexif.load` rejects, or decode to an optional `Exif` IFD field list
(`piexif.load(exif_data).get('Exif')`). -/
inductive FileContent
  | unreadable
  | noExifBlock
  | badExifBlock
  | exif (fields : Option (List ExifField))
deriving DecidableEq

/-- `export_exif_data` of `src/main.py`: opens the file, reads
`im.info.get("exif")` and runs `piexif.load` on it. Exceptions raised by
the codecs propagate to the caller (`Except.error`). -/
def export_exif_data : FileContent → Except String (Option (List ExifField))
  | .unreadable => .error "cannot identify image file"
  | .noExifBlock => .ok none
  | .badExifBlock => .error "given data is not exif data"
  | .exif fields => .ok fields

/-- `re.search` of the EXIF date pattern anywhere in a decoded field value. -/
def searchExifDate (cs : List Char) : Bool :=
  (findFirstSuffix matchExifDate cs).isSome

/-- The per-field test of the `check_exif` scan loop: only bytes values that
decode as UTF-8 can match; undecodable bytes are skipped (`continue`), and
non-bytes values fail the `isinstance` guard. -/
def field_has_exif_date : ExifField → Bool
  | .bytesUtf8 s => searchExifDate s.data
  | .bytesUndecodable => false
  | .nonBytes => false

/-- `check_exif` of `src/main.py`: runs `export_exif_data` (whose exceptions
propagate), then scans the field values for the EXIF date pattern. -/
def check_exif (fc : FileContent) : Except String Bool :=
  match export_exif_data fc with
  | .error e => .error e
  | .ok none => .ok false
  | .ok (some fields) => .ok (fields.any field_has_exif_date)

/-- Python `os.path.splitext` extension logic restricted to a basename:
characters after the last dot, unless every character before that dot is
itself a dot (leading dots do not start an extension). The `seen` flag
records whether a non-dot character has occurred before the current
position. -/
def extHelper : List Char → Bool → Option (List Char)
  | [], _ => none
  | c :: rest, seen =>
    if c = '.' then
      match extHelper rest seen with
      | some e => some e
      | none => if seen then some rest else none
    else extHelper rest true

/-- `os.path.splitext(filename)[1][1:].lower()` of `get_files_from_path`. -/
def ext_lower (name : String) : String :=
  String.mk (((extHelper name.data false).getD []).map Char.toLower)

/-- Abstract state of the input root handed to `get_files_from_path`:
missing, not a directory, or a directory given by its `os.walk` output
(the root's regular files plus, for each descendant directory, its path
segments from the root and its regular files). -/
inductive PyFS
  | missing
  | notDirectory
  | directory (rootFiles : List String) (subWalk : List (List String × List String))
deriving DecidableEq

/-- `os.path.join` for the path shapes this program produces (relative
segments, no trailing separators); empty components are skipped. -/
def joinPath (a b : String) : String :=
  if a = "" then b else if b = "" then a else a ++ "/" ++ b

/-- The relative directory string obtained from walk segments via
`os.path.relpath(root_dir, path)` (with `'.'` mapped to `''`). -/
def joinSegs (segs : List String) : String :=
  segs.foldl joinPath ""

/-- The `File` record built by `get_files_from_path` for one discovered
regular file. -/
def mkCandidate (path : String) (output_path : String) (segs : List String)
    (name : String) : File :=
  { filename := name,
    file_path := joinPath (joinPath path (joinSegs segs)) name,
    new_file_path :=
      if output_path = "" then ""
      else joinPath (joinPath output_path (joinSegs segs)) name,
    extension := ext_lower name,
    parsed_date := "",
    exif_bytes := none,
    relative_dir := joinSegs segs }

/-- `get_files_from_path` of `src/main.py`. In non-recursive mode
`os.listdir` raises on a missing or non-directory root; in recursive mode
`os.walk` (default `onerror=None`) silently yields nothing there. For a
valid root it keeps exactly the regular files whose lower-cased extension
is in `FILES_EXT`. -/
def get_files_from_path (path : String) (pfs : PyFS) (recursive : Bool)
    (output_path : String) : Except String (List File) :=
  match pfs, recursive with
  | .missing, false => .error "FileNotFoundError"
  | .notDirectory, false => .error "NotADirectoryError"
  | .missing, true => .ok []
  | .notDirectory, true => .ok []
  | .directory rootFiles subWalk, rcv =>
    let walk := if rcv then ([], rootFiles) :: subWalk else [([], rootFiles)]
    .ok (walk.flatMap (fun e =>
      e.2.filterMap (fun name =>
        if ext_lower name ∈ FILES_EXT then
          some (mkCandidate path output_path e.1 name)
        else none)))

/-- Abstract content of a file in the output tree: an image written by
`img.save` (characterized by the `FileContent` the codec produced), or a
video copied by `shutil.copy2` from a source path, optionally retagged by a
successful exiftool run with the given timestamp string. -/
inductive Content
  | image (fc : FileContent)
  | video (srcPath : String) (tagged : Option String)
deriving DecidableEq

/-- The output filesystem: a partial map from target paths to contents. -/
def Fs : Type := String → Option Content

/-- Creating/overwriting a file at path `p`. -/
def fsWrite (fs : Fs) (p : String) (c : Content) : Fs :=
  fun q => if q = p then some c else fs q

/-- `os.remove` at path `p`. -/
def fsRemove (fs : Fs) (p : String) : Fs :=
  fun q => if q = p then none else fs q

/-- Observable filesystem actions of the commit engine, in program order. -/
inductive Action
  | mkdirs (dir : String)
  | remove (path : String)
  | writeImg (path : String)
  | copy (path : String)
  | runTool (path : String)
deriving DecidableEq

/-- Result of one `save_exif_data` / `save_video_exif_data` call:
the destination-exists skip (`return None` after the debug log), a
successful write (`warned` records the image verification warning), or the
caught `CalledProcessError` branch of the video path (`return None` after
`logger.error` with the tool's stderr). -/
inductive SaveResult
  | skippedExists
  | written (warned : Bool)
  | failedTool (stderr : String)
deriving DecidableEq

/-- Per-file outcome of the orchestrator, one per candidate file. -/
inductive Outcome
  | skippedHasMetadata
  | skippedNoDate
  | skippedExists
  | skippedToolUnavailable
  | written (warned : Bool)
  | failed (msg : String)
deriving DecidableEq

/-- External collaborators of the pipeline: what `Image.open`/`piexif` see
at each source path, what content `img.save` actually produces on disk for
a given source and Exif payload, whether `shutil.which('exiftool')` finds
the tool, and the exit status / stderr of an exiftool invocation on a
target path. -/
structure Env where
  sourceContent : String → FileContent
  savedContent : String → ExifPayload → FileContent
  exiftoolAvailable : Bool
  toolOk : String → Bool
  toolStderr : String → String

/-- `check_exiftool` of `src/main.py`: `shutil.which('exiftool') is not None`. -/
def check_exiftool (env : Env) : Bool :=
  env.exiftoolAvailable

/-- `target_dir = os.path.join(output_path, file.relative_dir) if file.relative_dir else output_path`. -/
def target_dir (output_path : String) (f : File) : String :=
  if f.relative_dir = "" then output_path else joinPath output_path f.relative_dir

/-- `new_file_path = os.path.join(target_dir, file.filename)` as recomputed
by both save functions. -/
def target_path (output_path : String) (f : File) : String :=
  joinPath (target_dir output_path f) f.filename

/-- `new_image_exif_data` of `src/main.py`: builds the piexif payload with
`DateTimeOriginal` and `DateTimeDigitized` both set to `parsed_date` and
stores its dump in `exif_bytes`. -/
def new_image_exif_data (f : File) : File × ExifPayload :=
  ({ f with exif_bytes := some ⟨f.parsed_date, f.parsed_date⟩ },
   ⟨f.parsed_date, f.parsed_date⟩)

/-- The write-and-verify tail of `save_exif_data`: `img.save(new_file_path,
exif=file.exif_bytes)` followed by re-opening the written file and running
`check_exif` on it; a failed verification only logs a warning
(`warned = true` in the result), a verification exception propagates. -/
def imgWrite (env : Env) (f : File) (p : String) (fs0 : Fs) (acts : List Action) :
    Except String SaveResult × Fs × List Action :=
  let c := env.savedContent f.file_path (f.exif_bytes.getD ⟨"", ""⟩)
  let fs1 := fsWrite fs0 p (Content.image c)
  match check_exif c with
  | .error e => (.error e, fs1, acts ++ [Action.writeImg p])
  | .ok b => (.ok (.written (!b)), fs1, acts ++ [Action.writeImg p])

/-- `save_exif_data` of `src/main.py` (image path): resolve the target,
`os.makedirs`, collision check (skip without overwrite, `os.remove` with
overwrite), then write and verify. -/
def save_exif_data (env : Env) (f : File) (output_path : String)
    (overwrite : Bool) (fs : Fs) : Except String SaveResult × Fs × List Action :=
  let td := target_dir output_path f
  let p := target_path output_path f
  match fs p, overwrite with
  | some _, false => (.ok .skippedExists, fs, [Action.mkdirs td])
  | some _, true => imgWrite env f p (fsRemove fs p) [Action.mkdirs td, Action.remove p]
  | none, _ => imgWrite env f p fs [Action.mkdirs td]

/-- The copy-and-tag tail of `save_video_exif_data`: `shutil.copy2` to the
target, then the exiftool invocation; on `CalledProcessError` the copied
target is removed (`os.remove`) and the branch returns with the tool's
stderr. -/
def vidWrite (env : Env) (f : File) (p : String) (fs0 : Fs) (acts : List Action) :
    Except String SaveResult × Fs × List Action :=
  let fs1 := fsWrite fs0 p (Content.video f.file_path none)
  if env.toolOk p then
    (.ok (.written false), fsWrite fs1 p (Content.video f.file_path (some f.parsed_date)),
     acts ++ [Action.copy p, Action.runTool p])
  else
    (.ok (.failedTool (env.toolStderr p)), fsRemove fs1 p,
     acts ++ [Action.copy p, Action.runTool p, Action.remove p])

/-- `save_video_exif_data` of `src/main.py` (video path): resolve the
target, `os.makedirs`, collision check, then copy and tag. -/
def save_video_exif_data (env : Env) (f : File) (output_path : String)
    (overwrite : Bool) (fs : Fs) : Except String SaveResult × Fs × List Action :=
  let td := target_dir output_path f
  let p := target_path output_path f
  match fs p, overwrite with
  | some _, false => (.ok .skippedExists, fs, [Action.mkdirs td])
  | some _, true => vidWrite env f p (fsRemove fs p) [Action.mkdirs td, Action.remove p]
  | none, _ => vidWrite env f p fs [Action.mkdirs td]

/-- How `process_file` reports a save result: a returned `File` triggers the
success message, a skip returns silently, and the caught exiftool failure
was reported via `logger.error` with the tool's stderr. -/
def saveToOutcome : SaveResult → Outcome
  | .skippedExists => .skippedExists
  | .written w => .written w
  | .failedTool e => .failed e

/-- The tail of `process_file` after the image-only EXIF presence check:
filename parsing with its early exit, then the media-type dispatch
(exiftool availability gate and `save_video_exif_data` for videos,
`Image.open`/`new_image_exif_data`/`save_exif_data` for images). -/
def process_file_rest (env : Env) (output_path : String) (overwrite : Bool)
    (is_video : Bool) (f : File) (fs : Fs) : Except String Outcome × Fs × List Action :=
  let f2 := parse_filename_to_date f
  if f2.parsed_date = "" then (.ok .skippedNoDate, fs, [])
  else if is_video then
    if check_exiftool env = false then (.ok .skippedToolUnavailable, fs, [])
    else
      let r := save_video_exif_data env f2 output_path overwrite fs
      (r.1.map saveToOutcome, r.2.1, r.2.2)
  else
    if env.sourceContent f.file_path = .unreadable then
      (.error "cannot identify image file", fs, [])
    else
      let f3 := (new_image_exif_data f2).1
      let r := save_exif_data env f3 output_path overwrite fs
      (r.1.map saveToOutcome, r.2.1, r.2.2)

/-- `process_file` of `src/main.py`: for images, the EXIF presence check
(whose exceptions propagate) with its `skipped-has-metadata` early exit;
videos go straight to parsing. -/
def process_file (env : Env) (output_path : String) (overwrite : Bool)
    (f : File) (fs : Fs) : Except String Outcome × Fs × List Action :=
  let is_video := decide (f.extension ∈ VIDEO_EXT)
  if is_video then process_file_rest env output_path overwrite true f fs
  else
    match check_exif (env.sourceContent f.file_path) with
    | .error e => (.error e, fs, [])
    | .ok true => (.ok .skippedHasMetadata, fs, [])
    | .ok false => process_file_rest env output_path overwrite false f fs

/-- One iteration of the `main` loop: `process_file` inside
`try/except Exception`, any exception becoming a per-file report with the
error's message (`spinner.info(f"An error occurred: {str(e)}")`). -/
def run_file (env : Env) (output_path : String) (overwrite : Bool)
    (f : File) (fs : Fs) : Outcome × Fs :=
  match process_file env output_path overwrite f fs with
  | (.ok o, fs', _) => (o, fs')
  | (.error e, fs', _) => (.failed e, fs')

/-- The `for file in files_list` loop of `main`: sequential, one outcome per
file, the state threading through. -/
def main_loop (env : Env) (output_path : String) (overwrite : Bool) :
    List File → Fs → List Outcome × Fs
  | [], fs => ([], fs)
  | f :: rest, fs =>
    let r := run_file env output_path overwrite f fs
    let rr := main_loop env output_path overwrite rest r.2
    (r.1 :: rr.1, rr.2)

/-- `main` of `src/main.py` up to the final "Run complete." message:
the inventory call (outside the try/except, so its failure aborts the run
before the batch starts) followed by the per-file loop. -/
def main_run (env : Env) (input_path : String) (pfs : PyFS) (recursive : Bool)
    (output_path : String) (overwrite : Bool) (fs : Fs) :
    Except String (List Outcome × Fs) :=
  match get_files_from_path input_path pfs recursive "" with
  | .error e => .error e
  | .ok files => .ok (main_loop env output_path overwrite files fs)

theorem findFirstSuffix_isSome_iff (p : List Char → Bool) (hp : p [] = false)
    (cs : List Char) :
    (findFirstSuffix p cs).isSome = true ↔ ∃ i, p (cs.drop i) = true := by
  constructor
  · intro h
    rcases Option.isSome_iff_exists.mp h with ⟨i, hi⟩
    exact ⟨i, (findFirstSuffix_some_spec p cs i hi).1⟩
  · intro ⟨i, hi⟩
    cases hffs : findFirstSuffix p cs with
    | some j => rfl
    | none =>
      have := findFirstSuffix_none_spec p hp cs hffs i
      rw [hi] at this
      exact absurd this (by simp)

theorem parse_preserves_other_fields (f : File) :
    (parse_filename_to_date f).filename = f.filename
    ∧ (parse_filename_to_date f).relative_dir = f.relative_dir
    ∧ (parse_filename_to_date f).file_path = f.file_path
    ∧ (parse_filename_to_date f).extension = f.extension
    ∧ (parse_filename_to_date f).exif_bytes = f.exif_bytes := by
  unfold parse_filename_to_date
  cases findFirstSuffix matchDate8 f.filename.data with
  | none => exact ⟨rfl, rfl, rfl, rfl, rfl⟩
  | some i => exact ⟨rfl, rfl, rfl, rfl, rfl⟩

theorem target_path_parse (out : String) (f : File) :
    target_path out (parse_filename_to_date f) = target_path out f ∧
    target_dir out (parse_filename_to_date f) = target_dir out f := by
  rcases parse_preserves_other_fields f with ⟨h1, h2, _, _, _⟩
  constructor
  · unfold target_path target_dir
    rw [h1, h2]
  · unfold target_dir
    rw [h2]

theorem new_image_exif_data_fields (f : File) :
    ((new_image_exif_data f).1).filename = f.filename
    ∧ ((new_image_exif_data f).1).relative_dir = f.relative_dir
    ∧ ((new_image_exif_data f).1).file_path = f.file_path
    ∧ ((new_image_exif_data f).1).parsed_date = f.parsed_date
    ∧ ((new_image_exif_data f).1).exif_bytes = some ⟨f.parsed_date, f.parsed_date⟩ :=
  ⟨rfl, rfl, rfl, rfl, rfl⟩

/-- C1: the filename date parser extracts the date from the first occurrence
of eight consecutive digits anywhere in the filename (year/month/day slices,
no calendar validation — the matcher constrains characters to be digits and
nothing else), the time from the first occurrence of `at DD.DD.DD`
(defaulting to `00:00:00`), formats the timestamp as `YYYY:MM:DD HH:MM:SS`,
and leaves the file unchanged when no date pattern occurs, whether or not a
time pattern occurs. -/
theorem c1_filename_date_parsing (f : File) :
    ((∀ i, matchDate8 (f.filename.data.drop i) = false) → parse_filename_to_date f = f)
    ∧ (∀ i, matchDate8 (f.filename.data.drop i) = true →
        (∀ j, j < i → matchDate8 (f.filename.data.drop j) = false) →
        ((∀ j, matchAtTime (f.filename.data.drop j) = false) →
            (parse_filename_to_date f).parsed_date =
              dateSliceStr f.filename.data i ++ " " ++ "00:00:00")
        ∧ (∀ j, matchAtTime (f.filename.data.drop j) = true →
            (∀ k, k < j → matchAtTime (f.filename.data.drop k) = false) →
            (parse_filename_to_date f).parsed_date =
              dateSliceStr f.filename.data i ++ " " ++ timeSliceStr f.filename.data j))
    ∧ (∀ l : List Char, matchDate8 l = true ↔ 8 ≤ l.length ∧ ∀ c ∈ l.take 8, c.isDigit = true) := by
  refine ⟨?_, ?_, matchDate8_iff⟩
  · intro h
    cases hffs : findFirstSuffix matchDate8 f.filename.data with
    | none => simp [parse_filename_to_date, hffs]
    | some i =>
      have hm := (findFirstSuffix_some_spec matchDate8 f.filename.data i hffs).1
      rw [h i] at hm
      exact absurd hm (by simp)
  · intro i hi hleast
    have hffs : findFirstSuffix matchDate8 f.filename.data = some i :=
      findFirstSuffix_eq_some_of_least matchDate8 rfl _ i hi hleast
    constructor
    · intro hnot
      have hfft : findFirstSuffix matchAtTime f.filename.data = none := by
        cases hft : findFirstSuffix matchAtTime f.filename.data with
        | none => rfl
        | some j =>
          have hm := (findFirstSuffix_some_spec matchAtTime _ j hft).1
          rw [hnot j] at hm
          exact absurd hm (by simp)
      simp [parse_filename_to_date, hffs, hfft]
    · intro j hj hjleast
      have hfft : findFirstSuffix matchAtTime f.filename.data = some j :=
        findFirstSuffix_eq_some_of_least matchAtTime rfl _ j hj hjleast
      simp [parse_filename_to_date, hffs, hfft]

theorem c1_filename_date_parsing_witness :
    (parse_filename_to_date { filename := "IMG-20230415-WA0001 at 14.05.09.jpg" }).parsed_date
      = "2023:04:15 14:05:09" := by
  have h := ((c1_filename_date_parsing
      { filename := "IMG-20230415-WA0001 at 14.05.09.jpg" }).2.1
    4 (by decide) (by decide)).2 20 (by decide) (by decide)
  rw [h]
  rfl

/-- C2 counterexample: the presence check does raise to its caller — on a
file that cannot be opened or decoded, `check_exif` propagates the decoding
exception instead of degrading to `false`. -/
theorem c2_counterexample_presence_check_raises :
    check_exif FileContent.unreadable = Except.error "cannot identify image file"
    ∧ ∀ b : Bool, check_exif FileContent.unreadable ≠ Except.ok b := by
  refine ⟨rfl, ?_⟩
  intro b h
  simp [check_exif, export_exif_data] at h

/-- C2 (amended): the presence check raises exactly when the file itself or
its metadata block fails to decode (the exception is then handled at the
orchestrator level); absence of a metadata block yields `false`; on a
decodable block it returns `true` iff some decodable bytes field contains
the EXIF date pattern; fields that fail to decode (or are not bytes) are
skipped while the scan continues. -/
theorem c2_amended_presence_check (fields : List ExifField) (fc : FileContent) :
    ((∃ e, check_exif fc = Except.error e) ↔ (fc = .unreadable ∨ fc = .badExifBlock))
    ∧ check_exif FileContent.noExifBlock = .ok false
    ∧ check_exif (FileContent.exif none) = .ok false
    ∧ (check_exif (FileContent.exif (some fields)) = .ok true ↔
        ∃ s, ExifField.bytesUtf8 s ∈ fields ∧ ∃ i, matchExifDate (s.data.drop i) = true)
    ∧ (∀ g, field_has_exif_date g = false →
        check_exif (FileContent.exif (some (g :: fields))) =
          check_exif (FileContent.exif (some fields))) := by
  refine ⟨?_, rfl, rfl, ?_, ?_⟩
  · cases fc with
    | unreadable => simp [check_exif, export_exif_data]
    | noExifBlock => simp [check_exif, export_exif_data]
    | badExifBlock => simp [check_exif, export_exif_data]
    | exif o =>
      cases o with
      | none => simp [check_exif, export_exif_data]
      | some l => simp [check_exif, export_exif_data]
  · simp only [check_exif, export_exif_data, Except.ok.injEq, List.any_eq_true]
    constructor
    · intro ⟨g, hg, hgt⟩
      cases g with
      | bytesUtf8 s =>
        refine ⟨s, hg, ?_⟩
        have := (findFirstSuffix_isSome_iff matchExifDate rfl s.data).mp
        simp only [field_has_exif_date, searchExifDate] at hgt
        exact this hgt
      | bytesUndecodable => simp [field_has_exif_date] at hgt
      | nonBytes => simp [field_has_exif_date] at hgt
    · intro ⟨s, hs, hi⟩
      refine ⟨ExifField.bytesUtf8 s, hs, ?_⟩
      simp only [field_has_exif_date, searchExifDate]
      exact (findFirstSuffix_isSome_iff matchExifDate rfl s.data).mpr hi
  · intro g hg
    simp [check_exif, export_exif_data, hg]

theorem c2_amended_presence_check_witness :
    check_exif (FileContent.exif (some (ExifField.nonBytes ::
        [ExifField.bytesUtf8 "2023:04:15 14:05:09"]))) =
      check_exif (FileContent.exif (some [ExifField.bytesUtf8 "2023:04:15 14:05:09"])) :=
  (c2_amended_presence_check [ExifField.bytesUtf8 "2023:04:15 14:05:09"]
    FileContent.noExifBlock).2.2.2.2 ExifField.nonBytes rfl

/-- C3 counterexample: in recursive mode a missing root is not an inventory
error — `os.walk` silently yields nothing, so the builder returns an empty
inventory and the batch "starts" with zero files. -/
theorem c3_counterexample_recursive_missing_root :
    get_files_from_path "/in" PyFS.missing true "" = Except.ok []
    ∧ ∀ e, get_files_from_path "/in" PyFS.missing true "" ≠ Except.error e := by
  refine ⟨rfl, ?_⟩
  intro e h
  simp [get_files_from_path] at h

/-- C3 (amended): in non-recursive mode the inventory builder fails iff the
root is missing or not a directory, and that failure aborts the run before
the batch starts; in recursive mode the same roots instead yield an empty
inventory with no error. For a valid root it emits exactly the regular
files whose lower-cased extension is in `FILES_EXT`, with relative
directory empty for root-level files and the walk path otherwise. -/
theorem c3_amended_inventory (path out : String) :
    (∀ pfs : PyFS, (∃ e, get_files_from_path path pfs false out = Except.error e) ↔
        (pfs = PyFS.missing ∨ pfs = PyFS.notDirectory))
    ∧ (get_files_from_path path PyFS.missing true out = Except.ok []
       ∧ get_files_from_path path PyFS.notDirectory true out = Except.ok [])
    ∧ (∀ env ov fs pfs rcv e, get_files_from_path path pfs rcv "" = Except.error e →
        main_run env path pfs rcv out ov fs = Except.error e)
    ∧ (∀ rootFiles subWalk rcv g,
        (∃ L, get_files_from_path path (PyFS.directory rootFiles subWalk) rcv out
            = Except.ok L ∧ g ∈ L) ↔
        (∃ segs names name,
          (segs, names) ∈ (if rcv then ([], rootFiles) :: subWalk else [([], rootFiles)])
          ∧ name ∈ names ∧ ext_lower name ∈ FILES_EXT
          ∧ g = mkCandidate path out segs name))
    ∧ (∀ segs name, (mkCandidate path out segs name).relative_dir = joinSegs segs)
    ∧ joinSegs [] = "" := by
  refine ⟨?_, ⟨rfl, rfl⟩, ?_, ?_, fun segs name => rfl, rfl⟩
  · intro pfs
    cases pfs with
    | missing => simp [get_files_from_path]
    | notDirectory => simp [get_files_from_path]
    | directory rootFiles subWalk => simp [get_files_from_path]
  · intro env ov fs pfs rcv e h
    unfold main_run
    rw [h]
  · intro rootFiles subWalk rcv g
    simp only [get_files_from_path, Except.ok.injEq, exists_eq_left',
      List.mem_flatMap, List.mem_filterMap]
    constructor
    · intro ⟨e, he, name, hname, hcond⟩
      by_cases hx : ext_lower name ∈ FILES_EXT
      · rw [if_pos hx] at hcond
        exact ⟨e.1, e.2, name, by simpa using he, hname, hx, (Option.some.inj hcond).symm⟩
      · rw [if_neg hx] at hcond
        exact absurd hcond (by simp)
    · intro ⟨segs, names, name, hmem, hname, hx, hg⟩
      refine ⟨(segs, names), by simpa using hmem, name, hname, ?_⟩
      rw [if_pos hx, hg]

theorem c3_amended_inventory_witness :
    main_run
      { sourceContent := fun _ => FileContent.noExifBlock,
        savedContent := fun _ _ => FileContent.noExifBlock,
        exiftoolAvailable := true,
        toolOk := fun _ => true,
        toolStderr := fun _ => "" }
      "/in" PyFS.missing false "/out" false (fun _ => none)
      = Except.error "FileNotFoundError" :=
  (c3_amended_inventory "/in" "/out").2.2.1
    { sourceContent := fun _ => FileContent.noExifBlock,
      savedContent := fun _ _ => FileContent.noExifBlock,
      exiftoolAvailable := true,
      toolOk := fun _ => true,
      toolStderr := fun _ => "" }
    false (fun _ => none) PyFS.missing false "FileNotFoundError" rfl

theorem fsWrite_self (fs : Fs) (p : String) (c : Content) : fsWrite fs p c p = some c := by
  simp [fsWrite]

theorem fsWrite_other (fs : Fs) (p q : String) (c : Content) (h : q ≠ p) :
    fsWrite fs p c q = fs q := by
  simp [fsWrite, h]

theorem fsRemove_self (fs : Fs) (p : String) : fsRemove fs p p = none := by
  simp [fsRemove]

theorem fsRemove_other (fs : Fs) (p q : String) (h : q ≠ p) : fsRemove fs p q = fs q := by
  simp [fsRemove, h]

theorem fsRemove_fsWrite_cancel (fs : Fs) (p : String) (c : Content) (h : fs p = none) :
    fsRemove (fsWrite fs p c) p = fs := by
  funext q
  by_cases hq : q = p
  · subst hq
    rw [fsRemove_self, h]
  · rw [fsRemove_other _ _ _ hq, fsWrite_other _ _ _ _ hq]

theorem save_video_skip (env : Env) (f : File) (out : String) (fs : Fs) (c : Content)
    (h : fs (target_path out f) = some c) :
    save_video_exif_data env f out false fs
      = (Except.ok SaveResult.skippedExists, fs, [Action.mkdirs (target_dir out f)]) := by
  simp [save_video_exif_data, h]

theorem save_img_skip (env : Env) (f : File) (out : String) (fs : Fs) (c : Content)
    (h : fs (target_path out f) = some c) :
    save_exif_data env f out false fs
      = (Except.ok SaveResult.skippedExists, fs, [Action.mkdirs (target_dir out f)]) := by
  simp [save_exif_data, h]

theorem save_video_free (env : Env) (f : File) (out : String) (ov : Bool) (fs : Fs)
    (h : fs (target_path out f) = none) :
    save_video_exif_data env f out ov fs
      = vidWrite env f (target_path out f) fs [Action.mkdirs (target_dir out f)] := by
  cases ov <;> simp [save_video_exif_data, h]

theorem save_img_free (env : Env) (f : File) (out : String) (ov : Bool) (fs : Fs)
    (h : fs (target_path out f) = none) :
    save_exif_data env f out ov fs
      = imgWrite env f (target_path out f) fs [Action.mkdirs (target_dir out f)] := by
  cases ov <;> simp [save_exif_data, h]

theorem save_video_over (env : Env) (f : File) (out : String) (fs : Fs) (c : Content)
    (h : fs (target_path out f) = some c) :
    save_video_exif_data env f out true fs
      = vidWrite env f (target_path out f) (fsRemove fs (target_path out f))
          [Action.mkdirs (target_dir out f), Action.remove (target_path out f)] := by
  simp [save_video_exif_data, h]

theorem save_img_over (env : Env) (f : File) (out : String) (fs : Fs) (c : Content)
    (h : fs (target_path out f) = some c) :
    save_exif_data env f out true fs
      = imgWrite env f (target_path out f) (fsRemove fs (target_path out f))
          [Action.mkdirs (target_dir out f), Action.remove (target_path out f)] := by
  simp [save_exif_data, h]

theorem vidWrite_toolFail (env : Env) (f : File) (p : String) (fs0 : Fs) (acts : List Action)
    (h : env.toolOk p = false) :
    vidWrite env f p fs0 acts
      = (Except.ok (SaveResult.failedTool (env.toolStderr p)),
         fsRemove (fsWrite fs0 p (Content.video f.file_path none)) p,
         acts ++ [Action.copy p, Action.runTool p, Action.remove p]) := by
  simp [vidWrite, h]

theorem vidWrite_toolOk (env : Env) (f : File) (p : String) (fs0 : Fs) (acts : List Action)
    (h : env.toolOk p = true) :
    vidWrite env f p fs0 acts
      = (Except.ok (SaveResult.written false),
         fsWrite (fsWrite fs0 p (Content.video f.file_path none)) p
           (Content.video f.file_path (some f.parsed_date)),
         acts ++ [Action.copy p, Action.runTool p]) := by
  simp [vidWrite, h]

theorem imgWrite_checked (env : Env) (f : File) (p : String) (fs0 : Fs) (acts : List Action)
    (b : Bool)
    (h : check_exif (env.savedContent f.file_path (f.exif_bytes.getD ⟨"", ""⟩)) = Except.ok b) :
    imgWrite env f p fs0 acts
      = (Except.ok (SaveResult.written (!b)),
         fsWrite fs0 p (Content.image (env.savedContent f.file_path (f.exif_bytes.getD ⟨"", ""⟩))),
         acts ++ [Action.writeImg p]) := by
  simp [imgWrite, h]

theorem imgWrite_verify_error (env : Env) (f : File) (p : String) (fs0 : Fs)
    (acts : List Action) (e : String)
    (h : check_exif (env.savedContent f.file_path (f.exif_bytes.getD ⟨"", ""⟩)) = Except.error e) :
    imgWrite env f p fs0 acts
      = (Except.error e,
         fsWrite fs0 p (Content.image (env.savedContent f.file_path (f.exif_bytes.getD ⟨"", ""⟩))),
         acts ++ [Action.writeImg p]) := by
  simp [imgWrite, h]

theorem process_file_video_save (env : Env) (out : String) (ov : Bool) (f : File) (fs : Fs)
    (hv : f.extension ∈ VIDEO_EXT)
    (hp : (parse_filename_to_date f).parsed_date ≠ "")
    (ht : env.exiftoolAvailable = true) :
    process_file env out ov f fs
      = ((save_video_exif_data env (parse_filename_to_date f) out ov fs).1.map saveToOutcome,
         (save_video_exif_data env (parse_filename_to_date f) out ov fs).2.1,
         (save_video_exif_data env (parse_filename_to_date f) out ov fs).2.2) := by
  simp [process_file, process_file_rest, check_exiftool, hv, hp, ht]

theorem process_file_image_save (env : Env) (out : String) (ov : Bool) (f : File) (fs : Fs)
    (himg : f.extension ∉ VIDEO_EXT)
    (hchk : check_exif (env.sourceContent f.file_path) = Except.ok false)
    (hp : (parse_filename_to_date f).parsed_date ≠ "") :
    process_file env out ov f fs
      = ((save_exif_data env ((new_image_exif_data (parse_filename_to_date f)).1) out ov fs).1.map
            saveToOutcome,
         (save_exif_data env ((new_image_exif_data (parse_filename_to_date f)).1) out ov fs).2.1,
         (save_exif_data env ((new_image_exif_data (parse_filename_to_date f)).1) out ov fs).2.2) := by
  have hnur : env.sourceContent f.file_path ≠ FileContent.unreadable := by
    intro hb
    rw [hb] at hchk
    simp [check_exif, export_exif_data] at hchk
  simp [process_file, process_file_rest, himg, hchk, hp, hnur]

theorem run_file_ok (env : Env) (out : String) (ov : Bool) (f : File) (fs : Fs)
    (o : Outcome) (fs' : Fs) (tr : List Action)
    (h : process_file env out ov f fs = (Except.ok o, fs', tr)) :
    run_file env out ov f fs = (o, fs') := by
  unfold run_file
  rw [h]

theorem run_file_err (env : Env) (out : String) (ov : Bool) (f : File) (fs : Fs)
    (e : String) (fs' : Fs) (tr : List Action)
    (h : process_file env out ov f fs = (Except.error e, fs', tr)) :
    run_file env out ov f fs = (Outcome.failed e, fs') := by
  unfold run_file
  rw [h]

/-- C4: for a candidate whose resolved target path already exists, both the
image and the video save apply the same collision policy — without
overwrite the result is the destination-exists skip with the filesystem
untouched and no write action; with overwrite the existing target file is
removed first (the action trace opens with `makedirs` then `remove` before
any write/copy/tool action). -/
theorem c4_collision_policy (env : Env) (f : File) (out : String) (fs : Fs) (c : Content)
    (h : fs (target_path out f) = some c) :
    (save_exif_data env f out false fs
        = (Except.ok SaveResult.skippedExists, fs, [Action.mkdirs (target_dir out f)])
      ∧ save_video_exif_data env f out false fs
        = (Except.ok SaveResult.skippedExists, fs, [Action.mkdirs (target_dir out f)]))
    ∧ ((save_exif_data env f out true fs).2.2
        = [Action.mkdirs (target_dir out f), Action.remove (target_path out f),
           Action.writeImg (target_path out f)]
      ∧ (save_video_exif_data env f out true fs).2.2
        = [Action.mkdirs (target_dir out f), Action.remove (target_path out f),
           Action.copy (target_path out f), Action.runTool (target_path out f)]
          ++ (if env.toolOk (target_path out f) then []
              else [Action.remove (target_path out f)])) := by
  refine ⟨⟨save_img_skip env f out fs c h, save_video_skip env f out fs c h⟩, ?_, ?_⟩
  · rcases hc : check_exif (env.savedContent f.file_path (f.exif_bytes.getD ⟨"", ""⟩)) with e | b
    · rw [save_img_over env f out fs c h, imgWrite_verify_error env f _ _ _ e hc]
      rfl
    · rw [save_img_over env f out fs c h, imgWrite_checked env f _ _ _ b hc]
      rfl
  · by_cases htool : env.toolOk (target_path out f) = true
    · rw [save_video_over env f out fs c h, vidWrite_toolOk env f _ _ _ htool, if_pos htool]
      rfl
    · rw [save_video_over env f out fs c h,
        vidWrite_toolFail env f _ _ _ (Bool.eq_false_iff.mpr htool), if_neg htool]
      rfl

theorem c4_collision_policy_witness :
    (save_exif_data
        { sourceContent := fun _ => FileContent.noExifBlock,
          savedContent := fun _ _ => FileContent.noExifBlock,
          exiftoolAvailable := true,
          toolOk := fun _ => true,
          toolStderr := fun _ => "" }
        { filename := "a.jpg" } "/out" false
        (fun p => if p = "/out/a.jpg" then some (Content.image FileContent.noExifBlock) else none)).1
      = Except.ok SaveResult.skippedExists :=
  congrArg (fun r => r.1)
    ((c4_collision_policy
        { sourceContent := fun _ => FileContent.noExifBlock,
          savedContent := fun _ _ => FileContent.noExifBlock,
          exiftoolAvailable := true,
          toolOk := fun _ => true,
          toolStderr := fun _ => "" }
        { filename := "a.jpg" } "/out"
        (fun p => if p = "/out/a.jpg" then some (Content.image FileContent.noExifBlock) else none)
        (Content.image FileContent.noExifBlock) (by decide)).1.1)

/-- C6: with exiftool not available on the system, every video-class file
that passed the date-parsing stage is reported `skipped-tool-unavailable`,
the filesystem is untouched and no filesystem action at all is performed
for it. -/
theorem c6_tool_unavailable (env : Env) (out : String) (ov : Bool) (f : File) (fs : Fs)
    (hv : f.extension ∈ VIDEO_EXT)
    (hp : (parse_filename_to_date f).parsed_date ≠ "")
    (ht : env.exiftoolAvailable = false) :
    run_file env out ov f fs = (Outcome.skippedToolUnavailable, fs)
    ∧ (process_file env out ov f fs).2.2 = [] := by
  have hpf : process_file env out ov f fs = (.ok .skippedToolUnavailable, fs, []) := by
    simp [process_file, process_file_rest, check_exiftool, hv, hp, ht]
  exact ⟨by simp [run_file, hpf], by simp [hpf]⟩

theorem c6_tool_unavailable_witness :
    run_file
      { sourceContent := fun _ => FileContent.noExifBlock,
        savedContent := fun _ _ => FileContent.noExifBlock,
        exiftoolAvailable := false,
        toolOk := fun _ => true,
        toolStderr := fun _ => "" }
      "/out" false { filename := "VID-20230416-WA0002.mp4", extension := "mp4" }
      (fun _ => none)
      = (Outcome.skippedToolUnavailable, fun _ => none) :=
  (c6_tool_unavailable
      { sourceContent := fun _ => FileContent.noExifBlock,
        savedContent := fun _ _ => FileContent.noExifBlock,
        exiftoolAvailable := false,
        toolOk := fun _ => true,
        toolStderr := fun _ => "" }
      "/out" false { filename := "VID-20230416-WA0002.mp4", extension := "mp4" }
      (fun _ => none) (by decide) (by decide) rfl).1

/-- C7: for a video-class file on which the exiftool invocation exits
non-zero, the partially written copy at the target path is deleted (nothing
remains there) and the reported outcome is the failure carrying the tool's
diagnostic output. -/
theorem c7_tool_failure (env : Env) (out : String) (ov : Bool) (f : File) (fs : Fs)
    (hv : f.extension ∈ VIDEO_EXT)
    (hp : (parse_filename_to_date f).parsed_date ≠ "")
    (ht : env.exiftoolAvailable = true)
    (hfail : env.toolOk (target_path out f) = false)
    (hfree : fs (target_path out f) = none ∨ ov = true) :
    (run_file env out ov f fs).1 = Outcome.failed (env.toolStderr (target_path out f))
    ∧ (run_file env out ov f fs).2 (target_path out f) = none := by
  rw [← (target_path_parse out f).1] at hfail hfree ⊢
  obtain ⟨fs', tr', hsv, hfs'⟩ : ∃ fs' tr',
      save_video_exif_data env (parse_filename_to_date f) out ov fs
        = (Except.ok (SaveResult.failedTool
            (env.toolStderr (target_path out (parse_filename_to_date f)))), fs', tr')
      ∧ fs' (target_path out (parse_filename_to_date f)) = none := by
    rcases hfree with hnone | hov
    · rw [save_video_free env _ out ov fs hnone, vidWrite_toolFail env _ _ fs _ hfail]
      exact ⟨_, _, rfl, fsRemove_self _ _⟩
    · subst hov
      cases hex : fs (target_path out (parse_filename_to_date f)) with
      | none =>
        rw [save_video_free env _ out true fs hex, vidWrite_toolFail env _ _ fs _ hfail]
        exact ⟨_, _, rfl, fsRemove_self _ _⟩
      | some c =>
        rw [save_video_over env _ out fs c hex, vidWrite_toolFail env _ _ _ _ hfail]
        exact ⟨_, _, rfl, fsRemove_self _ _⟩
  have hpo : process_file env out ov f fs
      = (Except.ok (Outcome.failed
          (env.toolStderr (target_path out (parse_filename_to_date f)))), fs', tr') := by
    rw [process_file_video_save env out ov f fs hv hp ht, hsv]
    rfl
  rw [run_file_ok env out ov f fs _ fs' tr' hpo]
  exact ⟨rfl, hfs'⟩

theorem c7_tool_failure_witness :
    (run_file
      { sourceContent := fun _ => FileContent.noExifBlock,
        savedContent := fun _ _ => FileContent.noExifBlock,
        exiftoolAvailable := true,
        toolOk := fun _ => false,
        toolStderr := fun _ => "Error: file format not recognized" }
      "/out" false { filename := "VID-20230416-WA0002.mp4", extension := "mp4" }
      (fun _ => none)).2
      (target_path "/out" { filename := "VID-20230416-WA0002.mp4", extension := "mp4" })
      = none :=
  (c7_tool_failure
      { sourceContent := fun _ => FileContent.noExifBlock,
        savedContent := fun _ _ => FileContent.noExifBlock,
        exiftoolAvailable := true,
        toolOk := fun _ => false,
        toolStderr := fun _ => "Error: file format not recognized" }
      "/out" false { filename := "VID-20230416-WA0002.mp4", extension := "mp4" }
      (fun _ => none) (by decide) (by decide) rfl rfl (Or.inl rfl)).2

/-- C8: for an image-class file that gets written, the engine re-runs the
presence check on the just-written target content; when that check does not
detect a capture-date tag the outcome is still `written`, only flagged with
the non-fatal warning, and the written file remains at the target path. -/
theorem c8_verify_nonfatal (env : Env) (out : String) (ov : Bool) (f : File) (fs : Fs)
    (himg : f.extension ∉ VIDEO_EXT)
    (hchk : check_exif (env.sourceContent f.file_path) = Except.ok false)
    (hp : (parse_filename_to_date f).parsed_date ≠ "")
    (hfree : fs (target_path out f) = none ∨ ov = true)
    (hver : check_exif (env.savedContent f.file_path
        ⟨(parse_filename_to_date f).parsed_date, (parse_filename_to_date f).parsed_date⟩)
        = Except.ok false) :
    (run_file env out ov f fs).1 = Outcome.written true
    ∧ (run_file env out ov f fs).2 (target_path out f)
        = some (Content.image (env.savedContent f.file_path
            ⟨(parse_filename_to_date f).parsed_date, (parse_filename_to_date f).parsed_date⟩)) := by
  have hf3 := new_image_exif_data_fields (parse_filename_to_date f)
  have hfp := parse_preserves_other_fields f
  have htp3 : target_path out ((new_image_exif_data (parse_filename_to_date f)).1)
      = target_path out f := by
    unfold target_path target_dir
    rw [hf3.1, hf3.2.1, hfp.1, hfp.2.1]
  have hpayload : ((new_image_exif_data (parse_filename_to_date f)).1).exif_bytes.getD ⟨"", ""⟩
      = ⟨(parse_filename_to_date f).parsed_date, (parse_filename_to_date f).parsed_date⟩ := by
    rw [hf3.2.2.2.2]
    rfl
  have hfile3 : ((new_image_exif_data (parse_filename_to_date f)).1).file_path = f.file_path := by
    rw [hf3.2.2.1, hfp.2.2.1]
  have hver3 : check_exif (env.savedContent
      ((new_image_exif_data (parse_filename_to_date f)).1).file_path
      (((new_image_exif_data (parse_filename_to_date f)).1).exif_bytes.getD ⟨"", ""⟩))
      = Except.ok false := by
    rw [hfile3, hpayload]
    exact hver
  rw [← htp3] at hfree ⊢
  obtain ⟨fs', tr', hsv, hfs'⟩ : ∃ fs' tr',
      save_exif_data env ((new_image_exif_data (parse_filename_to_date f)).1) out ov fs
        = (Except.ok (SaveResult.written true), fs', tr')
      ∧ fs' (target_path out ((new_image_exif_data (parse_filename_to_date f)).1))
          = some (Content.image (env.savedContent f.file_path
              ⟨(parse_filename_to_date f).parsed_date, (parse_filename_to_date f).parsed_date⟩)) := by
    rcases hfree with hnone | hov
    · rw [save_img_free env _ out ov fs hnone, imgWrite_checked env _ _ fs _ false hver3]
      refine ⟨_, _, rfl, ?_⟩
      rw [fsWrite_self, hfile3, hpayload]
    · subst hov
      cases hex : fs (target_path out ((new_image_exif_data (parse_filename_to_date f)).1)) with
      | none =>
        rw [save_img_free env _ out true fs hex, imgWrite_checked env _ _ fs _ false hver3]
        refine ⟨_, _, rfl, ?_⟩
        rw [fsWrite_self, hfile3, hpayload]
      | some c =>
        rw [save_img_over env _ out fs c hex, imgWrite_checked env _ _ _ _ false hver3]
        refine ⟨_, _, rfl, ?_⟩
        rw [fsWrite_self, hfile3, hpayload]
  have hpo : process_file env out ov f fs = (Except.ok (Outcome.written true), fs', tr') := by
    rw [process_file_image_save env out ov f fs himg hchk hp, hsv]
    rfl
  rw [run_file_ok env out ov f fs _ fs' tr' hpo]
  exact ⟨rfl, hfs'⟩

theorem c8_verify_nonfatal_witness :
    (run_file
      { sourceContent := fun _ => FileContent.noExifBlock,
        savedContent := fun _ _ => FileContent.noExifBlock,
        exiftoolAvailable := true,
        toolOk := fun _ => true,
        toolStderr := fun _ => "" }
      "/out" false { filename := "IMG-20230415-WA0001.jpg", extension := "jpg" }
      (fun _ => none)).1
      = Outcome.written true :=
  (c8_verify_nonfatal
      { sourceContent := fun _ => FileContent.noExifBlock,
        savedContent := fun _ _ => FileContent.noExifBlock,
        exiftoolAvailable := true,
        toolOk := fun _ => true,
        toolStderr := fun _ => "" }
      "/out" false { filename := "IMG-20230415-WA0001.jpg", extension := "jpg" }
      (fun _ => none) (by decide) rfl (by decide) (Or.inl rfl) rfl).1

/-- C9: the orchestrator produces exactly one outcome per candidate file
(the run reaches its completion summary after attempting every file), any
exception from one file's pipeline is converted into a per-file `failed`
outcome carrying the error's message, and processing always continues with
the next file. -/
theorem c9_orchestrator (env : Env) (out : String) (ov : Bool) :
    (∀ files fs, (main_loop env out ov files fs).1.length = files.length)
    ∧ (∀ f fs e, (process_file env out ov f fs).1 = Except.error e →
        run_file env out ov f fs = (Outcome.failed e, (process_file env out ov f fs).2.1))
    ∧ (∀ f rest fs, main_loop env out ov (f :: rest) fs
        = ((run_file env out ov f fs).1
            :: (main_loop env out ov rest (run_file env out ov f fs).2).1,
           (main_loop env out ov rest (run_file env out ov f fs).2).2)) := by
  refine ⟨?_, ?_, ?_⟩
  · intro files
    induction files with
    | nil => intro fs; rfl
    | cons f rest ih =>
      intro fs
      simp only [main_loop, List.length_cons]
      rw [ih]
  · intro f fs e h
    unfold run_file
    rcases hpf : process_file env out ov f fs with ⟨r, fs', tr⟩
    rw [hpf] at h
    simp only at h
    subst h
    rfl
  · intro f rest fs
    rfl

theorem c9_orchestrator_witness :
    run_file
      { sourceContent := fun _ => FileContent.unreadable,
        savedContent := fun _ _ => FileContent.noExifBlock,
        exiftoolAvailable := true,
        toolOk := fun _ => true,
        toolStderr := fun _ => "" }
      "/out" false { filename := "corrupt.jpg", extension := "jpg" } (fun _ => none)
      = (Outcome.failed "cannot identify image file", fun _ => none) :=
  (c9_orchestrator
      { sourceContent := fun _ => FileContent.unreadable,
        savedContent := fun _ _ => FileContent.noExifBlock,
        exiftoolAvailable := true,
        toolOk := fun _ => true,
        toolStderr := fun _ => "" }
      "/out" false).2.1
    { filename := "corrupt.jpg", extension := "jpg" } (fun _ => none)
    "cannot identify image file" rfl

/-- Maximal runs of consecutive decimal digits in a character list, in
order of occurrence. -/
def digitRuns (cs : List Char) : List (List Char) :=
  match cs with
  | [] => []
  | c :: rest =>
    if c.isDigit then
      (c :: rest.takeWhile Char.isDigit) :: digitRuns (rest.dropWhile Char.isDigit)
    else
      digitRuns rest
termination_by cs.length
decreasing_by
  · have h := congrArg List.length (List.takeWhile_append_dropWhile Char.isDigit rest)
    simp only [List.length_append] at h
    simp only [List.length_cons]
    omega
  · simp only [List.length_cons]
    omega

theorem dropWhile_eq_drop_len (p : Char → Bool) :
    ∀ l : List Char, l.dropWhile p = l.drop ((l.takeWhile p).length) := by
  intro l
  induction l with
  | nil => rfl
  | cons c rest ih =>
    by_cases hc : p c = true
    · simp only [List.dropWhile_cons, List.takeWhile_cons, hc, if_pos]
      simpa using ih
    · simp [List.dropWhile_cons, List.takeWhile_cons, hc]

theorem take_eq_takeWhile_take (p : Char → Bool) (l : List Char) (n : Nat)
    (h : n ≤ (l.takeWhile p).length) : l.take n = (l.takeWhile p).take n := by
  obtain ⟨t, ht⟩ := List.takeWhile_prefix (l := l) p
  conv_lhs => rw [← ht]
  rw [List.take_append_eq_append_take, Nat.sub_eq_zero_of_le h, List.take_zero,
    List.append_nil]

theorem le_length_takeWhile_of_take (p : Char → Bool) :
    ∀ (n : Nat) (l : List Char), (∀ c ∈ l.take n, p c = true) → n ≤ l.length →
      n ≤ (l.takeWhile p).length := by
  intro n
  induction n with
  | zero => intro l _ _; exact Nat.zero_le _
  | succ m ih =>
    intro l hall hlen
    cases l with
    | nil => simp at hlen
    | cons c rest =>
      have hc : p c = true := hall c (by simp [List.take_succ_cons])
      rw [List.takeWhile_cons, if_pos hc]
      simp only [List.length_cons]
      have := ih rest (fun d hd => hall d (by simp [List.take_succ_cons, hd]))
        (by simpa using hlen)
      omega

theorem matchDate8_of_takeWhile (cs : List Char)
    (h : 8 ≤ (cs.takeWhile Char.isDigit).length) : matchDate8 cs = true := by
  rw [matchDate8_iff]
  refine ⟨le_trans h (List.takeWhile_prefix Char.isDigit).length_le, ?_⟩
  intro c hc
  rw [take_eq_takeWhile_take Char.isDigit cs 8 h] at hc
  exact List.mem_takeWhile_imp (List.take_subset 8 _ hc)

theorem takeWhile_of_matchDate8 (cs : List Char) (h : matchDate8 cs = true) :
    8 ≤ (cs.takeWhile Char.isDigit).length := by
  rw [matchDate8_iff] at h
  exact le_length_takeWhile_of_take Char.isDigit 8 cs h.2 h.1

theorem matchDate8_head_false (c : Char) (rest : List Char) (h : c.isDigit = false) :
    matchDate8 (c :: rest) = false := by
  by_contra hb
  rw [Bool.not_eq_false, matchDate8_iff] at hb
  have hc : c ∈ (c :: rest).take 8 := by simp [List.take_succ_cons]
  rw [hb.2 c hc] at h
  exact absurd h (by simp)

theorem no_match_in_short_digit_prefix :
    ∀ cs : List Char, (cs.takeWhile Char.isDigit).length < 8 →
      ∀ k, k < (cs.takeWhile Char.isDigit).length → matchDate8 (cs.drop k) = false := by
  intro cs
  induction cs with
  | nil => intro _ k hk; simp [List.takeWhile] at hk
  | cons c rest ih =>
    intro hlt k hk
    by_cases hc : c.isDigit = true
    · rw [List.takeWhile_cons, if_pos hc] at hlt hk
      simp only [List.length_cons] at hlt hk
      cases k with
      | zero =>
        simp only [List.drop_zero]
        by_contra hb
        rw [Bool.not_eq_false] at hb
        have h8 := takeWhile_of_matchDate8 _ hb
        rw [List.takeWhile_cons, if_pos hc] at h8
        simp only [List.length_cons] at h8
        omega
      | succ m =>
        simp only [List.drop_succ_cons]
        exact ih (by omega) m (by omega)
    · rw [List.takeWhile_cons, if_neg hc] at hk
      simp at hk

theorem findFirstSuffix_shift (p : List Char → Bool) :
    ∀ (m : Nat) (cs : List Char), (∀ k, k < m → p (cs.drop k) = false) →
      findFirstSuffix p cs = (findFirstSuffix p (cs.drop m)).map (· + m) := by
  intro m
  induction m with
  | zero =>
    intro cs _
    simp only [List.drop_zero]
    cases findFirstSuffix p cs <;> simp
  | succ m ih =>
    intro cs hno
    cases cs with
    | nil => simp [findFirstSuffix]
    | cons c rest =>
      have hc : p (c :: rest) = false := by simpa using hno 0 (Nat.succ_pos m)
      have hstep : findFirstSuffix p (c :: rest) = (findFirstSuffix p rest).map (· + 1) := by
        simp only [findFirstSuffix]
        rw [if_neg (by simp [hc])]
      have hrest : findFirstSuffix p rest = (findFirstSuffix p (rest.drop m)).map (· + m) := by
        apply ih
        intro k hk
        simpa using hno (k + 1) (Nat.succ_lt_succ hk)
      rw [hstep, hrest, List.drop_succ_cons]
      cases findFirstSuffix p (rest.drop m) with
      | none => rfl
      | some j =>
        simp only [Option.map_some', Option.some.injEq]
        omega

theorem digitRuns_find_spec :
    ∀ (n : Nat) (cs : List Char), cs.length ≤ n →
      ((digitRuns cs).find? (fun t => decide (8 ≤ t.length)) = none →
          findFirstSuffix matchDate8 cs = none)
      ∧ (∀ r, (digitRuns cs).find? (fun t => decide (8 ≤ t.length)) = some r →
          ∃ i, findFirstSuffix matchDate8 cs = some i ∧ (cs.drop i).take 8 = r.take 8) := by
  intro n
  induction n with
  | zero =>
    intro cs hlen
    obtain rfl : cs = [] := List.length_eq_zero.mp (Nat.le_zero.mp hlen)
    exact ⟨fun _ => rfl, fun r hr => by simp [digitRuns] at hr⟩
  | succ n ih =>
    intro cs hlen
    cases cs with
    | nil => exact ⟨fun _ => rfl, fun r hr => by simp [digitRuns] at hr⟩
    | cons c rest =>
      simp only [List.length_cons] at hlen
      by_cases hc : c.isDigit = true
      · have hruns : digitRuns (c :: rest)
            = (c :: rest.takeWhile Char.isDigit) :: digitRuns (rest.dropWhile Char.isDigit) := by
          rw [digitRuns.eq_def]
          simp [hc]
        have htw : (c :: rest).takeWhile Char.isDigit = c :: rest.takeWhile Char.isDigit := by
          rw [List.takeWhile_cons, if_pos hc]
        by_cases h8 : 8 ≤ (c :: rest.takeWhile Char.isDigit).length
        · have hfind : (digitRuns (c :: rest)).find? (fun t => decide (8 ≤ t.length))
              = some (c :: rest.takeWhile Char.isDigit) := by
            rw [hruns]
            exact List.find?_cons_of_pos _ (by simpa using h8)
          have hm : matchDate8 (c :: rest) = true := by
            apply matchDate8_of_takeWhile
            rw [htw]
            exact h8
          constructor
          · intro hnone
            rw [hfind] at hnone
            exact absurd hnone (by simp)
          · intro r hr
            rw [hfind] at hr
            obtain rfl : c :: rest.takeWhile Char.isDigit = r := Option.some.inj hr
            refine ⟨0, ?_, ?_⟩
            · simp only [findFirstSuffix]
              rw [if_pos hm]
            · simp only [List.drop_zero]
              rw [take_eq_takeWhile_take Char.isDigit (c :: rest) 8 (by rw [htw]; exact h8), htw]
        · have hlt : (c :: rest.takeWhile Char.isDigit).length < 8 := Nat.lt_of_not_le h8
          have hdropw : rest.dropWhile Char.isDigit
              = (c :: rest).drop ((c :: rest.takeWhile Char.isDigit).length) := by
            simp only [List.length_cons, List.drop_succ_cons]
            exact dropWhile_eq_drop_len Char.isDigit rest
          have hshift : findFirstSuffix matchDate8 (c :: rest)
              = (findFirstSuffix matchDate8 (rest.dropWhile Char.isDigit)).map
                  (· + (c :: rest.takeWhile Char.isDigit).length) := by
            rw [hdropw]
            apply findFirstSuffix_shift
            intro k hk
            apply no_match_in_short_digit_prefix (c :: rest)
            · rw [htw]; exact hlt
            · rw [htw]; exact hk
          have hfind : (digitRuns (c :: rest)).find? (fun t => decide (8 ≤ t.length))
              = (digitRuns (rest.dropWhile Char.isDigit)).find?
                  (fun t => decide (8 ≤ t.length)) := by
            rw [hruns]
            exact List.find?_cons_of_neg _ (by simpa using h8)
          have hdlen : (rest.dropWhile Char.isDigit).length ≤ n := by
            have h := congrArg List.length (List.takeWhile_append_dropWhile Char.isDigit rest)
            simp only [List.length_append] at h
            omega
          rcases ih (rest.dropWhile Char.isDigit) hdlen with ⟨ihn, ihs⟩
          constructor
          · intro hnone
            rw [hfind] at hnone
            rw [hshift, ihn hnone]
            rfl
          · intro r hr
            rw [hfind] at hr
            obtain ⟨i, hffs, htake⟩ := ihs r hr
            refine ⟨i + (c :: rest.takeWhile Char.isDigit).length, ?_, ?_⟩
            · rw [hshift, hffs]
              rfl
            · have hdd : (rest.dropWhile Char.isDigit).drop i
                  = (c :: rest).drop (i + (c :: rest.takeWhile Char.isDigit).length) := by
                rw [hdropw, List.drop_drop, Nat.add_comm]
              rw [← hdd]
              exact htake
      · have hcf : c.isDigit = false := Bool.eq_false_iff.mpr hc
        have hruns : digitRuns (c :: rest) = digitRuns rest := by
          rw [digitRuns.eq_def]
          simp [hcf]
        have hstep : findFirstSuffix matchDate8 (c :: rest)
            = (findFirstSuffix matchDate8 rest).map (· + 1) := by
          simp only [findFirstSuffix]
          rw [if_neg (by simp [matchDate8_head_false c rest hcf])]
        rcases ih rest (by omega) with ⟨ihn, ihs⟩
        constructor
        · intro hnone
          rw [hruns] at hnone
          rw [hstep, ihn hnone]
          rfl
        · intro r hr
          rw [hruns] at hr
          obtain ⟨i, hffs, htake⟩ := ihs r hr
          refine ⟨i + 1, ?_, ?_⟩
          · rw [hstep, hffs]
            rfl
          · rw [List.drop_succ_cons]
            exact htake

/-- C10 counterexample: the filename `87654321a123456789` contains a run of
more than eight consecutive digits whose leftmost such run is `123456789`,
so the claim predicts the date `1234:56:78`; but the parser's leftmost
eight-consecutive-digit match is the earlier exactly-eight-digit run, giving
`8765:43:21`. -/
theorem c10_counterexample_run_alignment :
    ((digitRuns ("87654321a123456789".data)).find? (fun t => decide (8 < t.length))
        = some ("123456789".data))
    ∧ (String.mk (("123456789".data).take 4) ++ ":"
        ++ String.mk ((("123456789".data).drop 4).take 2) ++ ":"
        ++ String.mk ((("123456789".data).drop 6).take 2)) = "1234:56:78"
    ∧ (parse_filename_to_date { filename := "87654321a123456789" }).parsed_date
        = "8765:43:21 00:00:00"
    ∧ ("8765:43:21 00:00:00".data).take 10 ≠ ("1234:56:78".data).take 10 := by
  refine ⟨?_, by decide, by decide, by decide⟩
  simp +decide [digitRuns, List.takeWhile, List.dropWhile]

/-- C10 (amended): the filename date pattern is unanchored within digit
runs: whenever the filename contains a run of at least eight consecutive
digits, the parser takes the leftmost eight consecutive digits — the first
eight digits of the leftmost maximal digit run of length at least eight —
as the date (first four as year, next two as month, next two as day); in
particular a filename whose leftmost such run is the 12-digit
`202304151234` parses the date as `2023:04:15` rather than rejecting it or
aligning to run boundaries. -/
theorem c10_amended_leftmost_run (f : File) (r : List Char)
    (h : (digitRuns f.filename.data).find? (fun t => decide (8 ≤ t.length)) = some r) :
    ∃ w, (parse_filename_to_date f).parsed_date
      = String.mk (r.take 4) ++ ":" ++ String.mk ((r.drop 4).take 2) ++ ":"
        ++ String.mk ((r.drop 6).take 2) ++ " " ++ w := by
  obtain ⟨i, hffs, htake⟩ :=
    (digitRuns_find_spec f.filename.data.length f.filename.data le_rfl).2 r h
  have h4 : (f.filename.data.drop i).take 4 = r.take 4 := by
    have hq := congrArg (List.take 4) htake
    rw [List.take_take, List.take_take] at hq
    simpa using hq
  have h52 : ((f.filename.data.drop i).drop 4).take 2 = (r.drop 4).take 2 := by
    have hq := congrArg (fun l => (List.drop 4 l).take 2) htake
    simp only [List.drop_take, List.take_take] at hq
    simpa using hq
  have h62 : ((f.filename.data.drop i).drop 6).take 2 = (r.drop 6).take 2 := by
    have hq := congrArg (fun l => (List.drop 6 l).take 2) htake
    simp only [List.drop_take, List.take_take] at hq
    simpa using hq
  have hslice : dateSliceStr f.filename.data i
      = String.mk (r.take 4) ++ ":" ++ String.mk ((r.drop 4).take 2) ++ ":"
        ++ String.mk ((r.drop 6).take 2) := by
    unfold dateSliceStr
    rw [h4, h52, h62]
  cases hfft : findFirstSuffix matchAtTime f.filename.data with
  | none =>
    refine ⟨"00:00:00", ?_⟩
    simp only [parse_filename_to_date, hffs, hfft]
    rw [hslice]
  | some j =>
    refine ⟨timeSliceStr f.filename.data j, ?_⟩
    simp only [parse_filename_to_date, hffs, hfft]
    rw [hslice]

theorem c10_amended_leftmost_run_witness :
    ∃ w, (parse_filename_to_date { filename := "VID-202304151234.mp4" }).parsed_date
      = String.mk (("202304151234".data).take 4) ++ ":"
        ++ String.mk ((("202304151234".data).drop 4).take 2) ++ ":"
        ++ String.mk ((("202304151234".data).drop 6).take 2) ++ " " ++ w :=
  c10_amended_leftmost_run { filename := "VID-202304151234.mp4" } ("202304151234".data)
    (by simp +decide [digitRuns, List.takeWhile, List.dropWhile])

/-- The stage conditions under which a candidate file reaches the commit
engine: videos need a parsed date and an available exiftool, images need the
presence check to report `false` (without raising) and a parsed date.
These depend only on the environment and the file, not on the output
filesystem. -/
def reaches_commit (env : Env) (f : File) : Prop :=
  if f.extension ∈ VIDEO_EXT then
    (parse_filename_to_date f).parsed_date ≠ "" ∧ env.exiftoolAvailable = true
  else
    check_exif (env.sourceContent f.file_path) = Except.ok false
    ∧ (parse_filename_to_date f).parsed_date ≠ ""

theorem process_file_video_nodate (env : Env) (out : String) (ov : Bool) (f : File) (fs : Fs)
    (hv : f.extension ∈ VIDEO_EXT)
    (hp : (parse_filename_to_date f).parsed_date = "") :
    process_file env out ov f fs = (.ok .skippedNoDate, fs, []) := by
  simp [process_file, process_file_rest, hv, hp]

theorem process_file_video_notool (env : Env) (out : String) (ov : Bool) (f : File) (fs : Fs)
    (hv : f.extension ∈ VIDEO_EXT)
    (hp : (parse_filename_to_date f).parsed_date ≠ "")
    (ht : env.exiftoolAvailable = false) :
    process_file env out ov f fs = (.ok .skippedToolUnavailable, fs, []) := by
  simp [process_file, process_file_rest, check_exiftool, hv, hp, ht]

theorem process_file_image_check_error (env : Env) (out : String) (ov : Bool) (f : File)
    (fs : Fs) (e : String)
    (himg : f.extension ∉ VIDEO_EXT)
    (hchk : check_exif (env.sourceContent f.file_path) = Except.error e) :
    process_file env out ov f fs = (.error e, fs, []) := by
  simp [process_file, himg, hchk]

theorem process_file_image_hasmeta (env : Env) (out : String) (ov : Bool) (f : File) (fs : Fs)
    (himg : f.extension ∉ VIDEO_EXT)
    (hchk : check_exif (env.sourceContent f.file_path) = Except.ok true) :
    process_file env out ov f fs = (.ok .skippedHasMetadata, fs, []) := by
  simp [process_file, himg, hchk]

theorem process_file_image_nodate (env : Env) (out : String) (ov : Bool) (f : File) (fs : Fs)
    (himg : f.extension ∉ VIDEO_EXT)
    (hchk : check_exif (env.sourceContent f.file_path) = Except.ok false)
    (hp : (parse_filename_to_date f).parsed_date = "") :
    process_file env out ov f fs = (.ok .skippedNoDate, fs, []) := by
  simp [process_file, process_file_rest, himg, hchk, hp]

theorem target_path_f3 (out : String) (f : File) :
    target_path out ((new_image_exif_data (parse_filename_to_date f)).1) = target_path out f := by
  have hf3 := new_image_exif_data_fields (parse_filename_to_date f)
  have hfp := parse_preserves_other_fields f
  unfold target_path target_dir
  rw [hf3.1, hf3.2.1, hfp.1, hfp.2.1]

/-- Exhaustive behaviour of one orchestrator step under `overwrite = false`:
either the file does not reach the commit engine (state untouched, outcome
never `written`), or it reaches it and — target occupied: destination-exists
skip with untouched state; target free and the write goes through (always
for images, for videos when the tool succeeds): the target becomes occupied
and no other path changes; target free, video, tool fails: `failed` outcome
and the state is restored exactly. -/
theorem run_file_master (env : Env) (out : String) (f : File) (fs : Fs) :
    (¬ reaches_commit env f ∧ (run_file env out false f fs).2 = fs
      ∧ ∀ w, (run_file env out false f fs).1 ≠ Outcome.written w)
    ∨ (reaches_commit env f ∧
        (((fs (target_path out f)).isSome
            ∧ run_file env out false f fs = (Outcome.skippedExists, fs))
          ∨ (fs (target_path out f) = none
            ∧ (f.extension ∈ VIDEO_EXT → env.toolOk (target_path out f) = true)
            ∧ ((run_file env out false f fs).2 (target_path out f)).isSome
            ∧ ∀ p, p ≠ target_path out f → (run_file env out false f fs).2 p = fs p)
          ∨ (fs (target_path out f) = none ∧ f.extension ∈ VIDEO_EXT
            ∧ env.toolOk (target_path out f) = false
            ∧ run_file env out false f fs
                = (Outcome.failed (env.toolStderr (target_path out f)), fs)))) := by
  by_cases hv : f.extension ∈ VIDEO_EXT
  · by_cases hp : (parse_filename_to_date f).parsed_date = ""
    · left
      have hrf := run_file_ok env out false f fs _ fs []
        (process_file_video_nodate env out false f fs hv hp)
      refine ⟨by simp [reaches_commit, hv, hp], by rw [hrf], ?_⟩
      intro w hw
      rw [hrf] at hw
      simp at hw
    · by_cases hta : env.exiftoolAvailable = true
      · right
        refine ⟨by simp [reaches_commit, hv, hp, hta], ?_⟩
        have htp := (target_path_parse out f).1
        cases hsm : fs (target_path out f) with
        | some c =>
          left
          have hsm2 : fs (target_path out (parse_filename_to_date f)) = some c := by
            rw [htp]; exact hsm
          have hsv := save_video_skip env (parse_filename_to_date f) out fs c hsm2
          have hpo : process_file env out false f fs = (Except.ok Outcome.skippedExists, fs,
              [Action.mkdirs (target_dir out (parse_filename_to_date f))]) := by
            rw [process_file_video_save env out false f fs hv hp hta, hsv]
            rfl
          exact ⟨rfl, run_file_ok env out false f fs _ fs _ hpo⟩
        | none =>
          have hsm2 : fs (target_path out (parse_filename_to_date f)) = none := by
            rw [htp]; exact hsm
          by_cases htool : env.toolOk (target_path out f) = true
          · right; left
            have htool2 : env.toolOk (target_path out (parse_filename_to_date f)) = true := by
              rw [htp]; exact htool
            have hsv := save_video_free env (parse_filename_to_date f) out false fs hsm2
            rw [vidWrite_toolOk env _ _ fs _ htool2] at hsv
            have hpo : process_file env out false f fs
                = (Except.ok (Outcome.written false),
                   fsWrite (fsWrite fs (target_path out (parse_filename_to_date f))
                       (Content.video (parse_filename_to_date f).file_path none))
                     (target_path out (parse_filename_to_date f))
                     (Content.video (parse_filename_to_date f).file_path
                       (some (parse_filename_to_date f).parsed_date)),
                   [Action.mkdirs (target_dir out (parse_filename_to_date f))]
                     ++ [Action.copy (target_path out (parse_filename_to_date f)),
                         Action.runTool (target_path out (parse_filename_to_date f))]) := by
              rw [process_file_video_save env out false f fs hv hp hta, hsv]
              rfl
            have hrf := run_file_ok env out false f fs _ _ _ hpo
            refine ⟨rfl, fun _ => htool, ?_, ?_⟩
            · rw [hrf]
              simp only
              rw [← htp, fsWrite_self]
              rfl
            · intro p hne
              have hne2 : p ≠ target_path out (parse_filename_to_date f) := by
                rw [htp]; exact hne
              rw [hrf]
              simp only
              rw [fsWrite_other _ _ _ _ hne2, fsWrite_other _ _ _ _ hne2]
          · right; right
            have htoolf : env.toolOk (target_path out f) = false := Bool.eq_false_iff.mpr htool
            have htool2 : env.toolOk (target_path out (parse_filename_to_date f)) = false := by
              rw [htp]; exact htoolf
            have hsv := save_video_free env (parse_filename_to_date f) out false fs hsm2
            rw [vidWrite_toolFail env _ _ fs _ htool2] at hsv
            have hpo : process_file env out false f fs
                = (Except.ok (Outcome.failed
                    (env.toolStderr (target_path out (parse_filename_to_date f)))),
                   fsRemove (fsWrite fs (target_path out (parse_filename_to_date f))
                       (Content.video (parse_filename_to_date f).file_path none))
                     (target_path out (parse_filename_to_date f)),
                   [Action.mkdirs (target_dir out (parse_filename_to_date f))]
                     ++ [Action.copy (target_path out (parse_filename_to_date f)),
                         Action.runTool (target_path out (parse_filename_to_date f)),
                         Action.remove (target_path out (parse_filename_to_date f))]) := by
              rw [process_file_video_save env out false f fs hv hp hta, hsv]
              rfl
            have hrf := run_file_ok env out false f fs _ _ _ hpo
            refine ⟨rfl, hv, htoolf, ?_⟩
            rw [hrf, fsRemove_fsWrite_cancel fs _ _ hsm2, htp]
      · left
        have htaf : env.exiftoolAvailable = false := Bool.eq_false_iff.mpr hta
        have hrf := run_file_ok env out false f fs _ fs []
          (process_file_video_notool env out false f fs hv hp htaf)
        refine ⟨?_, by rw [hrf], ?_⟩
        · simp only [reaches_commit, if_pos hv]
          intro hcontra
          exact hta hcontra.2
        · intro w hw
          rw [hrf] at hw
          simp at hw
  · cases hchk : check_exif (env.sourceContent f.file_path) with
    | error e =>
      left
      have hrf := run_file_err env out false f fs e fs []
        (process_file_image_check_error env out false f fs e hv hchk)
      refine ⟨?_, by rw [hrf], ?_⟩
      · simp only [reaches_commit, if_neg hv]
        intro hcontra
        rw [hchk] at hcontra
        exact absurd hcontra.1 (by simp)
      · intro w hw
        rw [hrf] at hw
        simp at hw
    | ok b =>
      cases b with
      | true =>
        left
        have hrf := run_file_ok env out false f fs _ fs []
          (process_file_image_hasmeta env out false f fs hv hchk)
        refine ⟨?_, by rw [hrf], ?_⟩
        · simp only [reaches_commit, if_neg hv]
          intro hcontra
          rw [hchk] at hcontra
          exact absurd hcontra.1 (by simp)
        · intro w hw
          rw [hrf] at hw
          simp at hw
      | false =>
        by_cases hp : (parse_filename_to_date f).parsed_date = ""
        · left
          have hrf := run_file_ok env out false f fs _ fs []
            (process_file_image_nodate env out false f fs hv hchk hp)
          refine ⟨by simp [reaches_commit, hv, hp], by rw [hrf], ?_⟩
          intro w hw
          rw [hrf] at hw
          simp at hw
        · right
          refine ⟨by simp [reaches_commit, hv, hchk, hp], ?_⟩
          have htp3 := target_path_f3 out f
          cases hsm : fs (target_path out f) with
          | some c =>
            left
            have hsm2 : fs (target_path out ((new_image_exif_data (parse_filename_to_date f)).1))
                = some c := by
              rw [htp3]; exact hsm
            have hsv := save_img_skip env ((new_image_exif_data (parse_filename_to_date f)).1)
              out fs c hsm2
            have hpo : process_file env out false f fs = (Except.ok Outcome.skippedExists, fs,
                [Action.mkdirs (target_dir out
                  ((new_image_exif_data (parse_filename_to_date f)).1))]) := by
              rw [process_file_image_save env out false f fs hv hchk hp, hsv]
              rfl
            exact ⟨rfl, run_file_ok env out false f fs _ fs _ hpo⟩
          | none =>
            right; left
            have hsm2 : fs (target_path out ((new_image_exif_data (parse_filename_to_date f)).1))
                = none := by
              rw [htp3]; exact hsm
            have hsv := save_img_free env ((new_image_exif_data (parse_filename_to_date f)).1)
              out false fs hsm2
            refine ⟨rfl, fun hvid => absurd hvid hv, ?_, ?_⟩
            · cases hcv : check_exif (env.savedContent
                  ((new_image_exif_data (parse_filename_to_date f)).1).file_path
                  (((new_image_exif_data (parse_filename_to_date f)).1).exif_bytes.getD
                    ⟨"", ""⟩)) with
              | error e =>
                rw [imgWrite_verify_error env _ _ fs _ e hcv] at hsv
                have hpo : process_file env out false f fs
                    = (Except.error e, fsWrite fs
                        (target_path out ((new_image_exif_data (parse_filename_to_date f)).1))
                        (Content.image (env.savedContent
                          ((new_image_exif_data (parse_filename_to_date f)).1).file_path
                          (((new_image_exif_data (parse_filename_to_date f)).1).exif_bytes.getD
                            ⟨"", ""⟩))),
                       [Action.mkdirs (target_dir out
                           ((new_image_exif_data (parse_filename_to_date f)).1))]
                         ++ [Action.writeImg (target_path out
                           ((new_image_exif_data (parse_filename_to_date f)).1))]) := by
                  rw [process_file_image_save env out false f fs hv hchk hp, hsv]
                  rfl
                have hrf := run_file_err env out false f fs e _ _ hpo
                rw [hrf]
                simp only
                rw [← htp3, fsWrite_self]
                rfl
              | ok vb =>
                rw [imgWrite_checked env _ _ fs _ vb hcv] at hsv
                have hpo : process_file env out false f fs
                    = (Except.ok (Outcome.written (!vb)), fsWrite fs
                        (target_path out ((new_image_exif_data (parse_filename_to_date f)).1))
                        (Content.image (env.savedContent
                          ((new_image_exif_data (parse_filename_to_date f)).1).file_path
                          (((new_image_exif_data (parse_filename_to_date f)).1).exif_bytes.getD
                            ⟨"", ""⟩))),
                       [Action.mkdirs (target_dir out
                           ((new_image_exif_data (parse_filename_to_date f)).1))]
                         ++ [Action.writeImg (target_path out
                           ((new_image_exif_data (parse_filename_to_date f)).1))]) := by
                  rw [process_file_image_save env out false f fs hv hchk hp, hsv]
                  rfl
                have hrf := run_file_ok env out false f fs _ _ _ hpo
                rw [hrf]
                simp only
                rw [← htp3, fsWrite_self]
                rfl
            · intro p hne
              have hne2 : p ≠ target_path out
                  ((new_image_exif_data (parse_filename_to_date f)).1) := by
                rw [htp3]; exact hne
              cases hcv : check_exif (env.savedContent
                  ((new_image_exif_data (parse_filename_to_date f)).1).file_path
                  (((new_image_exif_data (parse_filename_to_date f)).1).exif_bytes.getD
                    ⟨"", ""⟩)) with
              | error e =>
                rw [imgWrite_verify_error env _ _ fs _ e hcv] at hsv
                have hpo : process_file env out false f fs
                    = (Except.error e, fsWrite fs
                        (target_path out ((new_image_exif_data (parse_filename_to_date f)).1))
                        (Content.image (env.savedContent
                          ((new_image_exif_data (parse_filename_to_date f)).1).file_path
                          (((new_image_exif_data (parse_filename_to_date f)).1).exif_bytes.getD
                            ⟨"", ""⟩))),
                       [Action.mkdirs (target_dir out
                           ((new_image_exif_data (parse_filename_to_date f)).1))]
                         ++ [Action.writeImg (target_path out
                           ((new_image_exif_data (parse_filename_to_date f)).1))]) := by
                  rw [process_file_image_save env out false f fs hv hchk hp, hsv]
                  rfl
                have hrf := run_file_err env out false f fs e _ _ hpo
                rw [hrf]
                simp only
                rw [fsWrite_other _ _ _ _ hne2]
              | ok vb =>
                rw [imgWrite_checked env _ _ fs _ vb hcv] at hsv
                have hpo : process_file env out false f fs
                    = (Except.ok (Outcome.written (!vb)), fsWrite fs
                        (target_path out ((new_image_exif_data (parse_filename_to_date f)).1))
                        (Content.image (env.savedContent
                          ((new_image_exif_data (parse_filename_to_date f)).1).file_path
                          (((new_image_exif_data (parse_filename_to_date f)).1).exif_bytes.getD
                            ⟨"", ""⟩))),
                       [Action.mkdirs (target_dir out
                           ((new_image_exif_data (parse_filename_to_date f)).1))]
                         ++ [Action.writeImg (target_path out
                           ((new_image_exif_data (parse_filename_to_date f)).1))]) := by
                  rw [process_file_image_save env out false f fs hv hchk hp, hsv]
                  rfl
                have hrf := run_file_ok env out false f fs _ _ _ hpo
                rw [hrf]
                simp only
                rw [fsWrite_other _ _ _ _ hne2]

theorem run_file_frame (env : Env) (out : String) (f : File) (fs : Fs) (p : String) (c : Content)
    (h : fs p = some c) : (run_file env out false f fs).2 p = some c := by
  rcases run_file_master env out f fs with ⟨_, hid, _⟩ | ⟨_, hcase⟩
  · rw [hid]; exact h
  · rcases hcase with ⟨_, heq⟩ | ⟨hnone, _, _, hother⟩ | ⟨_, _, _, heq⟩
    · rw [heq]; exact h
    · have hne : p ≠ target_path out f := by
        intro hb
        rw [hb, hnone] at h
        exact Option.noConfusion h
      rw [hother p hne]
      exact h
    · rw [heq]; exact h

theorem main_loop_frame (env : Env) (out : String) :
    ∀ (files : List File) (fs : Fs) (p : String) (c : Content),
      fs p = some c → (main_loop env out false files fs).2 p = some c := by
  intro files
  induction files with
  | nil => intro fs p c h; exact h
  | cons f0 rest ih =>
    intro fs p c h
    exact ih _ p c (run_file_frame env out f0 fs p c h)

theorem run_file_skip_of_some (env : Env) (out : String) (f : File) (fs : Fs)
    (hr : reaches_commit env f) (hs : (fs (target_path out f)).isSome = true) :
    run_file env out false f fs = (Outcome.skippedExists, fs) := by
  rcases run_file_master env out f fs with ⟨hnr, _, _⟩ | ⟨_, hcase⟩
  · exact absurd hr hnr
  · rcases hcase with ⟨_, heq⟩ | ⟨hnone, _⟩ | ⟨hnone, _⟩
    · exact heq
    · rw [hnone] at hs
      exact absurd hs (by simp)
    · rw [hnone] at hs
      exact absurd hs (by simp)

theorem run_file_written_target (env : Env) (out : String) (f : File) (fs : Fs) (w : Bool)
    (hw : (run_file env out false f fs).1 = Outcome.written w) :
    reaches_commit env f
    ∧ ((run_file env out false f fs).2 (target_path out f)).isSome = true := by
  rcases run_file_master env out f fs with ⟨_, _, hnw⟩ | ⟨hr, hcase⟩
  · exact absurd hw (hnw w)
  · rcases hcase with ⟨_, heq⟩ | ⟨_, _, hsome, _⟩ | ⟨_, _, _, heq⟩
    · rw [heq] at hw
      simp at hw
    · exact ⟨hr, hsome⟩
    · rw [heq] at hw
      simp at hw

theorem run_file_second_noop (env : Env) (out : String) (f : File) (fs0 fsB : Fs)
    (hframe : ∀ p c, (run_file env out false f fs0).2 p = some c → fsB p = some c) :
    (run_file env out false f fsB).2 = fsB := by
  rcases run_file_master env out f fs0 with ⟨hnr, _, _⟩ | ⟨hr, hcase⟩
  · rcases run_file_master env out f fsB with ⟨_, hid, _⟩ | ⟨hr', _⟩
    · exact hid
    · exact absurd hr' hnr
  · rcases hcase with ⟨hsome0, heq0⟩ | ⟨_, _, hsome0, _⟩ | ⟨_, hvid0, htoolf0, heq0⟩
    · obtain ⟨c, hc⟩ := Option.isSome_iff_exists.mp hsome0
      have hB : fsB (target_path out f) = some c := by
        apply hframe
        rw [heq0]
        exact hc
      rw [run_file_skip_of_some env out f fsB hr (by rw [hB]; rfl)]
    · obtain ⟨c, hc⟩ := Option.isSome_iff_exists.mp hsome0
      have hB : fsB (target_path out f) = some c := hframe _ _ hc
      rw [run_file_skip_of_some env out f fsB hr (by rw [hB]; rfl)]
    · cases hB : fsB (target_path out f) with
      | some c =>
        rw [run_file_skip_of_some env out f fsB hr (by rw [hB]; rfl)]
      | none =>
        rcases run_file_master env out f fsB with ⟨hnr', _, _⟩ | ⟨_, hcase'⟩
        · exact absurd hr hnr'
        · rcases hcase' with ⟨hsome', _⟩ | ⟨_, htool', _, _⟩ | ⟨_, _, _, heq'⟩
          · rw [hB] at hsome'
            exact absurd hsome' (by simp)
          · rw [htool' hvid0] at htoolf0
            exact Bool.noConfusion htoolf0
          · rw [heq']

/-- C5: re-running the whole batch on the same inputs with overwrite
disabled is idempotent — every file whose outcome was `written` in the
first run gets outcome `skipped-destination-exists` in the second run, and
its target file is unchanged by the entire second run. -/
theorem c5_rerun_idempotent (env : Env) (out : String) (files : List File) (fs0 : Fs)
    (i : Nat) (f : File) (w : Bool)
    (hf : files[i]? = some f)
    (hw : (main_loop env out false files fs0).1[i]? = some (Outcome.written w)) :
    (main_loop env out false files ((main_loop env out false files fs0).2)).1[i]?
        = some Outcome.skippedExists
    ∧ (main_loop env out false files ((main_loop env out false files fs0).2)).2
          (target_path out f)
        = (main_loop env out false files fs0).2 (target_path out f) := by
  induction files generalizing fs0 i with
  | nil => simp at hf
  | cons f0 rest ih =>
    have hcons1 : main_loop env out false (f0 :: rest) fs0
        = ((run_file env out false f0 fs0).1
            :: (main_loop env out false rest (run_file env out false f0 fs0).2).1,
           (main_loop env out false rest (run_file env out false f0 fs0).2).2) := rfl
    cases i with
    | zero =>
      obtain rfl : f0 = f := by simpa using hf
      rw [hcons1] at hw ⊢
      simp only [List.getElem?_cons_zero, Option.some.injEq] at hw
      obtain ⟨hr, hsomeA⟩ := run_file_written_target env out f0 fs0 w hw
      obtain ⟨c, hcA⟩ := Option.isSome_iff_exists.mp hsomeA
      have hcB : (main_loop env out false rest (run_file env out false f0 fs0).2).2
          (target_path out f0) = some c :=
        main_loop_frame env out rest _ _ c hcA
      have hskip := run_file_skip_of_some env out f0
        ((main_loop env out false rest (run_file env out false f0 fs0).2).2) hr
        (by rw [hcB]; rfl)
      constructor
      · show ((run_file env out false f0
              ((main_loop env out false rest (run_file env out false f0 fs0).2).2)).1
            :: (main_loop env out false rest
                (run_file env out false f0
                  ((main_loop env out false rest (run_file env out false f0 fs0).2).2)).2).1)[0]?
          = some Outcome.skippedExists
        rw [hskip]
        simp
      · show (main_loop env out false rest
              (run_file env out false f0
                ((main_loop env out false rest (run_file env out false f0 fs0).2).2)).2).2
            (target_path out f0)
          = (main_loop env out false rest (run_file env out false f0 fs0).2).2
              (target_path out f0)
        rw [hskip]
        rw [main_loop_frame env out rest
          ((main_loop env out false rest (run_file env out false f0 fs0).2).2)
          (target_path out f0) c hcB, hcB]
    | succ j =>
      have hfj : rest[j]? = some f := by simpa using hf
      rw [hcons1] at hw ⊢
      simp only [List.getElem?_cons_succ] at hw
      have hframe : ∀ p c, (run_file env out false f0 fs0).2 p = some c →
          (main_loop env out false rest (run_file env out false f0 fs0).2).2 p = some c := by
        intro p c hc
        exact main_loop_frame env out rest _ p c hc
      have hnoop := run_file_second_noop env out f0 fs0
        ((main_loop env out false rest (run_file env out false f0 fs0).2).2) hframe
      obtain ⟨ih1, ih2⟩ := ih (run_file env out false f0 fs0).2 j hfj hw
      constructor
      · show ((run_file env out false f0
              ((main_loop env out false rest (run_file env out false f0 fs0).2).2)).1
            :: (main_loop env out false rest
                (run_file env out false f0
                  ((main_loop env out false rest (run_file env out false f0 fs0).2).2)).2).1)[j+1]?
          = some Outcome.skippedExists
        simp only [List.getElem?_cons_succ]
        rw [hnoop]
        exact ih1
      · show (main_loop env out false rest
              (run_file env out false f0
                ((main_loop env out false rest (run_file env out false f0 fs0).2).2)).2).2
            (target_path out f)
          = (main_loop env out false rest (run_file env out false f0 fs0).2).2
              (target_path out f)
        rw [hnoop]
        exact ih2

/-- A concrete environment for exercising the pipeline: sources decode with
no EXIF block, the image codec writes content without a recognizable tag,
exiftool is available and succeeds. -/
def sampleEnv : Env :=
  { sourceContent := fun _ => FileContent.noExifBlock,
    savedContent := fun _ _ => FileContent.noExifBlock,
    exiftoolAvailable := true,
    toolOk := fun _ => true,
    toolStderr := fun _ => "" }

/-- A concrete image candidate with a parsable date in its filename. -/
def sampleImage : File := { filename := "IMG-20230415-WA0001.jpg", extension := "jpg" }

/-- The empty output filesystem. -/
def emptyFs : Fs := fun _ => none

theorem c5_rerun_idempotent_witness :
    (main_loop sampleEnv "/out" false [sampleImage]
        ((main_loop sampleEnv "/out" false [sampleImage] emptyFs).2)).1[0]?
      = some Outcome.skippedExists
    ∧ (main_loop sampleEnv "/out" false [sampleImage]
        ((main_loop sampleEnv "/out" false [sampleImage] emptyFs).2)).2
          (target_path "/out" sampleImage)
      = (main_loop sampleEnv "/out" false [sampleImage] emptyFs).2
          (target_path "/out" sampleImage) :=
  c5_rerun_idempotent sampleEnv "/out" [sampleImage] emptyFs 0 sampleImage true rfl (by decide)

end WaExif
